import Mathlib

/-!
Verification of the CobraPinger content-ingestion pipeline.

This file is a shallow embedding, in Lean 4, of the parts of the repository
that the specification's testable properties talk about:

* `database.py` (`DatabaseManager`): channel / video / topic / summary /
  transcript / embedding / advisor-note storage over SQLite, modelled as a
  record of table contents (lists of rows) with per-table rowid counters;
* `cobrapinger.py` `fetch_transcript`: the bounded-retry transcript fetch
  loop, modelled with an oracle giving each attempt's outcome and a trace
  recording the result, the number of service calls and the sleeps;
* `cobrapinger.py` `run_program_once` (the per-channel sweep), modelled in
  the `Except` monad: a Python exception that is not caught inside the loop
  body is an `Except.error` that propagates out of the sweep, exactly as an
  uncaught exception propagates out of `run_program_once`.

Python strings are Lean `String`s (lists of `Char`); SQLite autoincrement
rowids are `Nat` counters carried in the state.
-/

namespace CobraPinger

/-! ## Character predicates and trimming

Python `str.strip()` removes leading and trailing whitespace
(space, tab, newline, carriage return, vertical tab, form feed).
SQLite `TRIM(x)` removes leading and trailing space characters only.
-/

/-- Whitespace as recognised by Python `str.strip()` (ASCII range). -/
def isPySpace (c : Char) : Bool :=
  c = ' ' || c = '\t' || c = '\n' || c = '\x0d' || c = '\x0b' || c = '\x0c'

/-- Space as recognised by SQLite `TRIM`. -/
def isSqlSpace (c : Char) : Bool := c = ' '

/-- Remove the maximal run of `p`-characters from both ends of a list:
first the trailing run (via the reversal), then the leading run. -/
def trimBy (p : Char → Bool) (l : List Char) : List Char :=
  List.dropWhile p ((List.dropWhile p l.reverse).reverse)

/-- SQLite `TRIM(name)` as used in the SELECT in `get_or_create_topic`. -/
def sqlTrim (s : String) : String := String.mk (trimBy isSqlSpace s.data)

/-- Python `topic_name.lower().strip()` from `database.py`,
`get_or_create_topic` (line 129). -/
def normalizeTopic (s : String) : String :=
  String.mk (trimBy isPySpace (s.data.map Char.toLower))

/-! ## Quote extraction (`store_summary`, `database.py` lines 92-99)

`store_summary` scans the summary text with the Python regex
`\*\*"([^"]+)"\*\*` using `re.finditer`, which yields the non-overlapping
matches found scanning left to right.  Because `[^"]+` cannot cross a
double quote, a match attempt at a position is fully determined: the text
must start with `**"`, the captured group is the (nonempty) run of
non-quote characters that follows, and the closing `"**` must come right
after it; when the attempt fails the scan advances one character.
-/

/-- Attempt the regex match at the head of the character list.  On success
return the captured group and the characters after the whole match. -/
def matchQuoteAt : List Char → Option (List Char × List Char)
  | '*' :: '*' :: '"' :: rest =>
    match rest.dropWhile (fun c => c ≠ '"') with
    | '"' :: '*' :: '*' :: tail =>
      if (rest.takeWhile (fun c => c ≠ '"')).isEmpty then none
      else some (rest.takeWhile (fun c => c ≠ '"'), tail)
    | _ => none
  | _ => none

/-- The scan of `re.finditer`: try to match at the current position; on a
match, emit the captured group and resume after the match, otherwise
advance one character. -/

def findQuotes : List Char → List (List Char)
  | [] => []
  | c :: rest =>
    match h : matchQuoteAt (c :: rest) with
    | some (content, tail) => content :: findQuotes tail
    | none => findQuotes rest
  termination_by l => l.length
  decreasing_by
  · have key : ∀ {l content tail : List Char},
        matchQuoteAt l = some (content, tail) → tail.length < l.length := by
      intro l content tail h
      unfold matchQuoteAt at h
      split at h
      next rest =>
        split at h
        next tl hdrop =>
          split at h
          · exact absurd h (by simp)
          · have htl : tl = tail := by
              simpa using congrArg (fun o => Option.map Prod.snd o) h
            have hle : (rest.dropWhile (fun c => c ≠ '"')).length
                ≤ rest.length :=
              (List.dropWhile_suffix _).sublist.length_le
            rw [hdrop] at hle
            simp only [List.length_cons] at hle
            subst htl
            simp only [List.length_cons]
            omega
        next => exact absurd h (by simp)
      next => exact absurd h (by simp)
    exact key h
  · simp

/-- Quotes extracted by `store_summary` from a summary string, in order. -/
def extractQuotes (s : String) : List String :=
  (findQuotes s.data).map String.mk

/-! ## The database (`database.py`)

SQLite tables are lists of rows in insertion order; `SELECT ... WHERE p`
returning `fetchone()` is `List.find?`; autoincrement rowids are per-table
`next…Id` counters (`cursor.lastrowid` is the id just assigned).
-/

structure ChannelRow where
  id : Nat
  youtube_id : String
  name : String
deriving DecidableEq

structure VideoRow where
  id : Nat
  youtube_id : String
  channel_id : Nat
  title : String
  youtube_created_at : String
  thumbnail_url : Option String
deriving DecidableEq

structure TopicRow where
  id : Nat
  name : String
deriving DecidableEq

structure DB where
  channels : List ChannelRow
  videos : List VideoRow
  topics : List TopicRow
  transcripts : List (Nat × String)
  summaries : List (Nat × String)
  quotes : List (Nat × String)
  embeddings : List (Nat × List Int)
  videoTopics : List (Nat × Nat)
  advisorNotes : List (Nat × String × String)
  nextChannelId : Nat
  nextVideoId : Nat
  nextTopicId : Nat
deriving DecidableEq

def DB.empty : DB := ⟨[], [], [], [], [], [], [], [], [], 1, 1, 1⟩

/-- From `database.py` lines 36-54, `get_or_create_channel`: SELECT by
`youtube_id`; if a row is found return its id, else INSERT and return
`lastrowid`. -/
def DB.get_or_create_channel (db : DB) (youtube_id name : String) :
    Nat × DB :=
  match db.channels.find? (fun r => r.youtube_id == youtube_id) with
  | some r => (r.id, db)
  | none =>
    (db.nextChannelId,
     { db with
        channels := db.channels ++ [⟨db.nextChannelId, youtube_id, name⟩],
        nextChannelId := db.nextChannelId + 1 })

/-- From `database.py` lines 56-68, `store_video`: `INSERT OR IGNORE` followed
by `SELECT id ... WHERE youtube_id = ?`.  The schema (not part of the
corpus) declares `video.youtube_id` unique — the spec's §3 invariant
"a Video's external identifier is globally unique" — so the insert is a
no-op exactly when a row with that `youtube_id` exists, and the SELECT
then finds that row; sequentially this is find-or-insert. -/
def DB.store_video (db : DB) (youtube_id : String) (channel_id : Nat)
    (title published_date : String) (thumbnail_url : Option String) :
    Nat × DB :=
  match db.videos.find? (fun r => r.youtube_id == youtube_id) with
  | some r => (r.id, db)
  | none =>
    (db.nextVideoId,
     { db with
        videos := db.videos ++
          [⟨db.nextVideoId, youtube_id, channel_id, title, published_date,
            thumbnail_url⟩],
        nextVideoId := db.nextVideoId + 1 })

/-- From `database.py` lines 70-78, `store_transcript`: plain INSERT. -/
def DB.store_transcript (db : DB) (video_id : Nat) (content : String) :
    DB :=
  { db with transcripts := db.transcripts ++ [(video_id, content)] }

/-- From `database.py` lines 80-101, `store_summary`: INSERT the summary row,
then one quote row per `re.finditer` match of `\*\*"([^"]+)"\*\*`. -/
def DB.store_summary (db : DB) (video_id : Nat) (content : String) : DB :=
  { db with
      summaries := db.summaries ++ [(video_id, content)],
      quotes := db.quotes ++
        (extractQuotes content).map (fun q => (video_id, q)) }

/-- From `database.py` lines 103-111, `store_embedding`: `INSERT OR REPLACE`
keyed on `video_id` — any existing row for the video is replaced. -/
def DB.store_embedding (db : DB) (video_id : Nat) (e : List Int) : DB :=
  { db with
      embeddings :=
        (db.embeddings.filter (fun r => r.1 != video_id)) ++ [(video_id, e)] }

/-- From `database.py` lines 124-142, `get_or_create_topic`: normalise with
Python `lower().strip()`, SELECT with `TRIM(name) = ?`, INSERT the
normalised name when absent. -/
def DB.get_or_create_topic (db : DB) (topic_name : String) : Nat × DB :=
  let topic_name := normalizeTopic topic_name
  match db.topics.find? (fun r => sqlTrim r.name == topic_name) with
  | some r => (r.id, db)
  | none =>
    (db.nextTopicId,
     { db with
        topics := db.topics ++ [⟨db.nextTopicId, topic_name⟩],
        nextTopicId := db.nextTopicId + 1 })

/-- From `database.py` lines 144-152, `link_video_topics`: `INSERT OR IGNORE`
of each (video, topic) pair; the link table's primary key is the pair
(spec §4.5: "link-table insert-if-absent"). -/
def DB.link_video_topics (db : DB) (video_id : Nat)
    (topic_ids : List Nat) : DB :=
  { db with
      videoTopics := topic_ids.foldl
        (fun acc t => if acc.contains (video_id, t) then acc
                      else acc ++ [(video_id, t)])
        db.videoTopics }

/-- Modelled from the spec: `store_advisor_notes` is called by
`cobrapinger.py` but its definition is not in the corpus's `database.py`;
spec §4.5 gives "append-only inserts for ... AdvisorNote" of
(persona-key, content) pairs. -/
def DB.store_advisor_notes (db : DB) (video_id : Nat)
    (notes : List (String × String)) : DB :=
  { db with advisorNotes := db.advisorNotes ++
      notes.map (fun n => (video_id, n)) }

/-! ## The transcript fetcher (`cobrapinger.py` lines 83-101)

```
def fetch_transcript(video_id, retries=5, delay=2):
    for attempt in range(1, retries + 1):
        try:
            transcript = YouTubeTranscriptApi.get_transcript(video_id)
            return " ".join([entry['text'] for entry in transcript])
        except CouldNotRetrieveTranscript:
            return None
        except Exception as e:
            log(...)
        if attempt < retries:
            time.sleep(delay)
    print(...)
    return None
```

The transcript service is an oracle mapping the attempt number to that
attempt's outcome: the caption fragments on success, the terminal
`CouldNotRetrieveTranscript` (captions disabled), or any other exception
(transient).  The loop is embedded structurally on the number of
remaining attempts (`remaining = retries + 1 - attempt`), so a call with
`remaining = r + 1` runs attempt number `attempt` and `attempt < retries`
holds exactly when `r ≥ 1`.  The trace records the returned value, how
many service calls were made, and each `time.sleep` duration in order.
The two `except` arms mean no exception escapes the loop body.
-/

inductive AttemptOutcome where
  | success (entries : List String)
  | disabled
  | transient
deriving DecidableEq

structure FetchTrace where
  result : Option String
  calls : Nat
  sleeps : List Nat
deriving DecidableEq

/-- One pass of the `for attempt in range(1, retries + 1)` loop. -/
def fetchGo (svc : Nat → AttemptOutcome) (delay : Nat) :
    Nat → Nat → Nat → List Nat → FetchTrace
  | 0, _, calls, sleeps => ⟨none, calls, sleeps⟩
  | r + 1, attempt, calls, sleeps =>
    match svc attempt with
    | .success entries =>
      ⟨some (String.intercalate " " entries), calls + 1, sleeps⟩
    | .disabled => ⟨none, calls + 1, sleeps⟩
    | .transient =>
      fetchGo svc delay r (attempt + 1) (calls + 1)
        (if r = 0 then sleeps else sleeps ++ [delay])

/-- Function `fetch_transcript`: the loop starts at attempt 1 with no calls made
and no sleeps; the source defaults are `retries=5, delay=2`. -/
def fetch_transcript (svc : Nat → AttemptOutcome) (retries delay : Nat) :
    FetchTrace :=
  fetchGo svc delay retries 1 0 []

/-! ## The orchestrator (`cobrapinger.py` lines 191-271, `run_program_once`)

External collaborators are an environment of oracles; Python exception
propagation is the `Except String` monad.  Crucially, the body of the
`for youtuber in config['youtubers']` loop contains no try/except, so an
error raised while processing one channel propagates out of
`run_program_once`; the only steps that can raise in the model are those
whose Python counterparts can raise out of the loop body — in particular
`load_last_video_data`, whose `json.load` raises on corrupt content.
Steps that catch all their exceptions internally (`fetch_transcript`,
`summarize_text`, `generate_embedding`, `extract_topics`,
`generate_advisor_notes`, and the feed parse per spec §4.1) are total
oracles returning degraded values.  Console logging is not modelled;
file writes and the notification are recorded as effects.
-/

structure Youtuber where
  name : String
  channel_id : String
  system_prompt : String
  openai_enabled : Bool

structure Config where
  youtubers : List Youtuber
  discord_webhook_url : String
  db_path : String

/-- A feed entry as used by the orchestrator: `yt_videoid`, `title`,
`published`, `link`, and the optional `media_thumbnail` URL. -/
structure FeedEntry where
  yt_videoid : String
  title : String
  published : String
  link : String
  media_thumbnail : Option String

/-- One dedup-history record: the id, title and published fields of one video. -/
structure VideoRec where
  id : String
  title : String
  published : String
deriving DecidableEq

structure Env where
  fs : String → Option String
  parseVideoData : String → Except String (List VideoRec)
  fetch_new_video : String → Option FeedEntry
  transcript_svc : String → Nat → AttemptOutcome
  summarize : String → String → Option String
  embedding : String → Option (List Int)
  extract_topics : String → List String
  advisor_notes : String → List (String × String)

/-- The per-channel dedup file name: the youtuber name suffixed with `_last_video_data.json`. -/
def last_video_file (youtuber_name : String) : String :=
  youtuber_name ++ "_last_video_data.json"

/-- From `cobrapinger.py` lines 45-51, `load_last_video_data`: if the file
exists its content is handed to `json.load` (`env.parseVideoData`), whose
failure on unreadable/corrupt content propagates; a missing file yields
the empty list. -/
def load_last_video_data (fs : String → Option String)
    (parse : String → Except String (List VideoRec))
    (youtuber_name : String) : Except String (List VideoRec) :=
  match fs (last_video_file youtuber_name) with
  | some content => parse content
  | none => Except.ok []

/-- The RSS URL built at line 198. -/
def feed_url (channel_id : String) : String :=
  "https://www.youtube.com/feeds/videos.xml?channel_id=" ++ channel_id

/-- From `cobrapinger.py` lines 261-267: append the new record, then
`if len(last_video_data) > 5: last_video_data.pop(0)`. -/
def appendDedup (last_video_data : List VideoRec) (r : VideoRec) :
    List VideoRec :=
  let appended := last_video_data ++ [r]
  if 5 < appended.length then appended.tail else appended

/-- Observable side effects of one channel pass other than database
writes (which live in `DB`): the transcript file write, the call to
`send_discord_notification(link, summary, webhook)`, and the dedup file
write (`save_last_video_data`). -/
inductive Effect where
  | saveTranscriptFile (youtuber_name title published transcript : String)
  | sendNotif (link summary webhook : String)
  | saveDedupFile (youtuber_name : String) (data : List VideoRec)
deriving DecidableEq

/-- The body of the `for youtuber in config['youtubers']` loop
(`cobrapinger.py` lines 195-271), for one channel.  `Except.error`
is an uncaught Python exception leaving the loop body. -/
def processChannel (env : Env) (webhook : String) (db : DB)
    (y : Youtuber) : Except String (DB × List Effect) :=
  match load_last_video_data env.fs env.parseVideoData y.name with
  | Except.error e => Except.error e
  | Except.ok last_video_data =>
    match env.fetch_new_video (feed_url y.channel_id) with
    | none => Except.ok (db, [])
    | some v =>
      if last_video_data.any (fun r => r.id == v.yt_videoid) then
        Except.ok (db, [])
      else
        match db.get_or_create_channel y.channel_id y.name with
        | (channel_id, db) =>
          match db.store_video v.yt_videoid channel_id v.title v.published
              v.media_thumbnail with
          | (db_video_id, db) =>
            match (fetch_transcript (env.transcript_svc v.yt_videoid)
                5 2).result with
            | some transcript =>
              let db := db.store_transcript db_video_id transcript
              let db := match env.embedding transcript with
                | some e => db.store_embedding db_video_id e
                | none => db
              let topics := env.extract_topics transcript
              match topics.foldl
                  (fun acc topic =>
                    match acc.2.get_or_create_topic topic with
                    | (topic_id, db') => (acc.1 ++ [topic_id], db'))
                  (([] : List Nat), db) with
              | (topic_ids, db) =>
                let db := db.link_video_topics db_video_id topic_ids
                match (if y.openai_enabled then
                    match env.summarize transcript y.system_prompt with
                    | some s => (s, db.store_summary db_video_id s)
                    | none => ("No summary available.", db)
                  else
                    ("OpenAI functionality is disabled for this YouTuber.",
                     db)) with
                | (summary, db) =>
                  let notes := env.advisor_notes transcript
                  let db := if notes.isEmpty then db
                    else db.store_advisor_notes db_video_id notes
                  Except.ok (db,
                    [Effect.saveTranscriptFile y.name v.title v.published
                       transcript,
                     Effect.sendNotif v.link summary webhook,
                     Effect.saveDedupFile y.name
                       (appendDedup last_video_data
                         ⟨v.yt_videoid, v.title, v.published⟩)])
            | none =>
              Except.ok (db,
                [Effect.sendNotif v.link "No transcript found." webhook,
                 Effect.saveDedupFile y.name
                   (appendDedup last_video_data
                     ⟨v.yt_videoid, v.title, v.published⟩)])

/-- The sweep over the configured channel list; an error from one channel
aborts the remainder, mirroring the absence of a try/except in the loop. -/
def sweep (env : Env) (webhook : String) :
    DB → List Youtuber → Except String (DB × List Effect)
  | db, [] => Except.ok (db, [])
  | db, y :: rest =>
    match processChannel env webhook db y with
    | Except.error e => Except.error e
    | Except.ok (db', effs) =>
      match sweep env webhook db' rest with
      | Except.error e => Except.error e
      | Except.ok (db'', effs') => Except.ok (db'', effs ++ effs')

/-- Top level `run_program_once(config, client)`. -/
def run_program_once (env : Env) (cfg : Config) (db : DB) :
    Except String (DB × List Effect) :=
  sweep env cfg.discord_webhook_url db cfg.youtubers

/-! ### A concrete failing run for claims C1 and C2

The dedup file of channel "A" exists but holds content that is not JSON, so
`json.load` raises `JSONDecodeError`; channel "B" has a fresh video. -/

def fsCrash : String → Option String := fun name =>
  if name == "A_last_video_data.json" then some "this is not valid json"
  else none

/-- Stub for `json.load` in the failing scenario: parsing the corrupt
content raises (the scenario never parses anything else). -/
def parseCrash : String → Except String (List VideoRec) := fun _ =>
  Except.error "json.decoder.JSONDecodeError"

def chanA : Youtuber := ⟨"A", "UCA", "pa", true⟩

def chanB : Youtuber := ⟨"B", "UCB", "pb", true⟩

def entryB : FeedEntry :=
  ⟨"vidB", "TitleB", "2025-01-01", "https://youtu.be/vidB", none⟩

def envCrash : Env :=
  { fs := fsCrash
    parseVideoData := parseCrash
    fetch_new_video := fun url =>
      if url == feed_url "UCB" then some entryB else none
    transcript_svc := fun _ _ => AttemptOutcome.disabled
    summarize := fun _ _ => none
    embedding := fun _ => none
    extract_topics := fun _ => []
    advisor_notes := fun _ => [] }

def cfgCrash : Config := ⟨[chanA, chanB], "hook", "db.sqlite"⟩

/-- Environment for the C6 witness: no file exists and the feed of every
channel is empty. -/
def envIdle : Env :=
  { fs := fun _ => none
    parseVideoData := fun _ => Except.error "unused"
    fetch_new_video := fun _ => none
    transcript_svc := fun _ _ => AttemptOutcome.transient
    summarize := fun _ _ => none
    embedding := fun _ => none
    extract_topics := fun _ => []
    advisor_notes := fun _ => [] }

/-- Environment for the C7 witness: channel "B" has a fresh video and the
transcript service fails transiently on every attempt. -/
def envNoTr : Env :=
  { fs := fun _ => none
    parseVideoData := fun _ => Except.error "unused"
    fetch_new_video := fun url =>
      if url == feed_url "UCB" then some entryB else none
    transcript_svc := fun _ _ => AttemptOutcome.transient
    summarize := fun _ _ => none
    embedding := fun _ => none
    extract_topics := fun _ => []
    advisor_notes := fun _ => [] }

/-! ## Lemmas about the quote scan -/

theorem findQuotes_nil : findQuotes [] = [] := by
  unfold findQuotes
  rfl

theorem findQuotes_cons_match {c : Char} {rest content tail : List Char}
    (h : matchQuoteAt (c :: rest) = some (content, tail)) :
    findQuotes (c :: rest) = content :: findQuotes tail := by
  conv_lhs => unfold findQuotes
  split
  next content' tail' h' =>
    rw [h'] at h
    simp only [Option.some.injEq, Prod.mk.injEq] at h
    rw [h.1, h.2]
  next h' => rw [h'] at h; exact absurd h (by simp)

theorem findQuotes_cons_nomatch {c : Char} {rest : List Char}
    (h : matchQuoteAt (c :: rest) = none) :
    findQuotes (c :: rest) = findQuotes rest := by
  conv_lhs => unfold findQuotes
  split
  next content' tail' h' => rw [h'] at h; exact absurd h (by simp)
  next => rfl

/-- The scan finds nothing exactly when no position of the text matches:
`findQuotes l = []` iff the match attempt fails at every suffix of `l`. -/
theorem findQuotes_eq_nil_iff (l : List Char) :
    findQuotes l = [] ↔ ∀ t, t <:+ l → matchQuoteAt t = none := by
  have H : ∀ (n : Nat) (l : List Char), l.length ≤ n →
      (findQuotes l = [] ↔ ∀ t, t <:+ l → matchQuoteAt t = none) := by
    intro n
    induction n with
    | zero =>
      intro l hl
      rw [List.length_eq_zero.mp (Nat.le_zero.mp hl)]
      simp only [findQuotes_nil, true_iff]
      intro t ht
      rw [List.suffix_nil.mp ht]
      rfl
    | succ n ih =>
      intro l hl
      match l with
      | [] =>
        simp only [findQuotes_nil, true_iff]
        intro t ht
        rw [List.suffix_nil.mp ht]
        rfl
      | c :: rest =>
        cases hm : matchQuoteAt (c :: rest) with
        | some pr =>
          have hm' : matchQuoteAt (c :: rest) = some (pr.1, pr.2) := by
            rw [hm]
          rw [findQuotes_cons_match hm']
          simp only [List.cons_ne_nil, false_iff, not_forall]
          exact ⟨c :: rest, by simp [List.suffix_refl, hm]⟩
        | none =>
          rw [findQuotes_cons_nomatch hm]
          have hr : rest.length ≤ n := by
            simp only [List.length_cons] at hl
            omega
          rw [ih rest hr]
          constructor
          · intro hall t ht
            rcases List.suffix_cons_iff.mp ht with h1 | h2
            · rw [h1]; exact hm
            · exact hall t h2
          · intro hall t ht
            exact hall t (List.suffix_cons_iff.mpr (Or.inr ht))
  exact H l.length l le_rfl

/-! ## Facts about trimming

The topic normalisation proof needs that SQLite `TRIM` leaves a string
already stripped by Python `str.strip()` unchanged (spaces are whitespace).
-/

theorem dropWhile_head_false {p : Char → Bool} :
    ∀ {l : List Char} {a : Char} {t : List Char},
      l.dropWhile p = a :: t → p a = false := by
  intro l
  induction l with
  | nil => intro a t h; simp at h
  | cons b bs ih =>
    intro a t h
    rw [List.dropWhile_cons] at h
    split at h
    · exact ih h
    · next hb =>
      injection h with h1 h2
      subst h1
      simpa using hb

theorem dropWhile_eq_self_of_head {p : Char → Bool} {l : List Char}
    (h : ∀ a t, l = a :: t → p a = false) : l.dropWhile p = l := by
  cases l with
  | nil => rfl
  | cons a t =>
    rw [List.dropWhile_cons, if_neg]
    simp [h a t rfl]

theorem trimBy_head_false {p : Char → Bool} {l : List Char} {a : Char}
    {t : List Char} (h : trimBy p l = a :: t) : p a = false :=
  dropWhile_head_false h

theorem trimBy_getLast_false {p : Char → Bool} {l : List Char} {a : Char}
    (h : (trimBy p l).getLast? = some a) : p a = false := by
  unfold trimBy at h
  obtain ⟨pre, hpre⟩ := List.dropWhile_suffix
    (l := (List.dropWhile p l.reverse).reverse) (p := p)
  have hM : ((List.dropWhile p l.reverse).reverse).getLast? = some a := by
    rw [← hpre, List.getLast?_append, h]
    rfl
  rw [List.getLast?_reverse] at hM
  cases hL : List.dropWhile p l.reverse with
  | nil => rw [hL] at hM; simp at hM
  | cons b t =>
    rw [hL] at hM
    simp only [List.head?_cons, Option.some.injEq] at hM
    subst hM
    exact dropWhile_head_false hL

theorem trimBy_eq_self {q : Char → Bool} {l : List Char}
    (hh : ∀ a t, l = a :: t → q a = false)
    (hl : ∀ a, l.getLast? = some a → q a = false) : trimBy q l = l := by
  unfold trimBy
  have h1 : List.dropWhile q l.reverse = l.reverse := by
    apply dropWhile_eq_self_of_head
    intro a t hat
    apply hl
    rw [← List.head?_reverse, hat]
    rfl
  rw [h1, List.reverse_reverse]
  exact dropWhile_eq_self_of_head hh

theorem trimBy_trimBy {p q : Char → Bool}
    (hqp : ∀ c, q c = true → p c = true) (l : List Char) :
    trimBy q (trimBy p l) = trimBy p l := by
  apply trimBy_eq_self
  · intro a t hat
    have hp : p a = false := trimBy_head_false hat
    cases hqa : q a with
    | false => rfl
    | true => rw [hqp a hqa] at hp; exact absurd hp (by simp)
  · intro a ha
    have hp : p a = false := trimBy_getLast_false ha
    cases hqa : q a with
    | false => rfl
    | true => rw [hqp a hqa] at hp; exact absurd hp (by simp)

/-- SQLite `TRIM` is the identity on a Python-normalised topic name. -/
theorem sqlTrim_normalizeTopic (s : String) :
    sqlTrim (normalizeTopic s) = normalizeTopic s := by
  unfold sqlTrim normalizeTopic
  refine congrArg String.mk ?_
  apply trimBy_trimBy
  intro c hc
  have : c = ' ' := by simpa [isSqlSpace] using hc
  subst this
  rfl

/-! ### Frame lemmas for the persistence gateway -/

theorem get_or_create_channel_frame (db : DB) (y n : String) :
    ((db.get_or_create_channel y n).2).videos = db.videos ∧
    ((db.get_or_create_channel y n).2).topics = db.topics ∧
    ((db.get_or_create_channel y n).2).transcripts = db.transcripts ∧
    ((db.get_or_create_channel y n).2).summaries = db.summaries ∧
    ((db.get_or_create_channel y n).2).quotes = db.quotes ∧
    ((db.get_or_create_channel y n).2).embeddings = db.embeddings ∧
    ((db.get_or_create_channel y n).2).videoTopics = db.videoTopics ∧
    ((db.get_or_create_channel y n).2).advisorNotes = db.advisorNotes := by
  unfold DB.get_or_create_channel
  cases db.channels.find? (fun r => r.youtube_id == y) <;> simp

theorem store_video_frame (db : DB) (y : String) (c : Nat) (t u : String)
    (th : Option String) :
    ((db.store_video y c t u th).2).channels = db.channels ∧
    ((db.store_video y c t u th).2).topics = db.topics ∧
    ((db.store_video y c t u th).2).transcripts = db.transcripts ∧
    ((db.store_video y c t u th).2).summaries = db.summaries ∧
    ((db.store_video y c t u th).2).quotes = db.quotes ∧
    ((db.store_video y c t u th).2).embeddings = db.embeddings ∧
    ((db.store_video y c t u th).2).videoTopics = db.videoTopics ∧
    ((db.store_video y c t u th).2).advisorNotes = db.advisorNotes := by
  unfold DB.store_video
  cases db.videos.find? (fun r => r.youtube_id == y) <;> simp

theorem store_video_creates (db : DB) (y : String) (c : Nat) (t u : String)
    (th : Option String) :
    ((db.store_video y c t u th).2).videos.any
      (fun r => r.youtube_id == y) = true := by
  unfold DB.store_video
  cases hf : db.videos.find? (fun r => r.youtube_id == y) with
  | some r =>
    simp only [hf]
    exact List.any_eq_true.mpr
      ⟨r, List.mem_of_find?_eq_some hf,
       List.find?_some (p := fun r : VideoRow => r.youtube_id == y) hf⟩
  | none =>
    simp only [hf]
    simp

theorem fetchGo_transient (svc : Nat → AttemptOutcome) (delay : Nat)
    (h : ∀ n, svc n = AttemptOutcome.transient) :
    ∀ (r attempt calls : Nat) (sleeps : List Nat),
      fetchGo svc delay r attempt calls sleeps
        = ⟨none, calls + r, sleeps ++ List.replicate (r - 1) delay⟩ := by
  intro r
  induction r with
  | zero => intro attempt calls sleeps; simp [fetchGo]
  | succ r ih =>
    intro attempt calls sleeps
    unfold fetchGo
    rw [h attempt]
    simp only
    cases r with
    | zero => simp [fetchGo]
    | succ r' =>
      rw [ih (attempt + 1) (calls + 1)]
      simp only [if_neg (Nat.succ_ne_zero r')]
      refine congrArg₂ (fun c s => FetchTrace.mk none c s) (by omega) ?_
      rw [List.append_assoc]
      refine congrArg (fun s => sleeps ++ s) ?_
      have : List.replicate (r' + 1 + 1 - 1) delay
          = delay :: List.replicate (r' + 1 - 1) delay := by
        simp [List.replicate_succ]
      rw [this]
      rfl

/-! ## The claims -/

/-! ## Claims about the orchestrator -/

/-- Claim C1 (refuted by the code): the loop body of `run_program_once`
is not wrapped in any try/except, so when processing channel "A" raises
(here: `json.load` on its corrupt dedup file), the error propagates out
of the whole sweep and channel "B" — which on its own would have been
processed with a nonempty effect list — is never reached. -/
theorem run_program_once_crashes :
    run_program_once envCrash cfgCrash DB.empty
      = Except.error "json.decoder.JSONDecodeError" ∧
    ∃ db effs, processChannel envCrash "hook" DB.empty chanB
      = Except.ok (db, effs) ∧ effs ≠ [] := by
  constructor
  · rfl
  · refine ⟨_, _, rfl, ?_⟩
    simp

/-- Claim C2 (refuted by the code): `load_last_video_data` only handles
the missing-file case; when the file exists and `json.load` raises on its
content, the error propagates instead of an empty history. -/
theorem load_last_video_data_corrupt (fs : String → Option String)
    (parse : String → Except String (List VideoRec))
    (name content err : String)
    (hex : fs (last_video_file name) = some content)
    (hparse : parse content = Except.error err) :
    load_last_video_data fs parse name = Except.error err := by
  unfold load_last_video_data
  rw [hex]
  exact hparse

/-- Witness for C2: the concrete corrupt file of the failing scenario. -/
theorem load_last_video_data_corrupt_w :
    fsCrash (last_video_file "A") = some "this is not valid json" ∧
    parseCrash "this is not valid json"
      = Except.error "json.decoder.JSONDecodeError" ∧
    load_last_video_data fsCrash parseCrash "A"
      = Except.error "json.decoder.JSONDecodeError" :=
  ⟨rfl, rfl,
   load_last_video_data_corrupt fsCrash parseCrash "A"
     "this is not valid json" "json.decoder.JSONDecodeError" rfl rfl⟩

/-- Claim C3: when the service signals captions disabled on the first
attempt (the terminal `CouldNotRetrieveTranscript`), `fetch_transcript`
returns null at once: one service call, no retry, no sleep. -/
theorem fetch_transcript_disabled (svc : Nat → AttemptOutcome)
    (retries delay : Nat) (hr : 1 ≤ retries)
    (h : svc 1 = AttemptOutcome.disabled) :
    fetch_transcript svc retries delay = ⟨none, 1, []⟩ := by
  obtain ⟨r, rfl⟩ : ∃ r, retries = r + 1 :=
    ⟨retries - 1, by omega⟩
  unfold fetch_transcript fetchGo
  rw [h]

/-- Witness for C3 with the source's default `retries=5, delay=2` and a
service whose first attempt reports captions disabled. -/
theorem fetch_transcript_disabled_w :
    1 ≤ 5 ∧
    (fun _ : Nat => AttemptOutcome.disabled) 1 = AttemptOutcome.disabled ∧
    fetch_transcript (fun _ => AttemptOutcome.disabled) 5 2
      = ⟨none, 1, []⟩ :=
  ⟨by decide, rfl,
   fetch_transcript_disabled (fun _ => AttemptOutcome.disabled) 5 2
     (by decide) rfl⟩

/-- Claim C4: when every attempt raises a transient (non-terminal) error,
`fetch_transcript` makes exactly `retries` service calls, sleeps `delay`
seconds between consecutive attempts (`retries - 1` sleeps), then returns
null — no exception escapes, the trace is total. -/
theorem fetch_transcript_transient (svc : Nat → AttemptOutcome)
    (retries delay : Nat) (h : ∀ n, svc n = AttemptOutcome.transient) :
    fetch_transcript svc retries delay
      = ⟨none, retries, List.replicate (retries - 1) delay⟩ := by
  unfold fetch_transcript
  rw [fetchGo_transient svc delay h retries 1 0 []]
  simp

/-- Witness for C4 at the source defaults `retries=5, delay=2`: five
calls, four two-second sleeps, null result. -/
theorem fetch_transcript_transient_w :
    (∀ n : Nat, (fun _ : Nat => AttemptOutcome.transient) n
        = AttemptOutcome.transient) ∧
    fetch_transcript (fun _ => AttemptOutcome.transient) 5 2
      = ⟨none, 5, List.replicate 4 2⟩ :=
  ⟨fun _ => rfl,
   fetch_transcript_transient (fun _ => AttemptOutcome.transient) 5 2
     (fun _ => rfl)⟩

/-- Claim C5: appending to a 5-entry dedup history evicts index 0 and
keeps the length at 5; more generally the update never grows a history
beyond the cap of 5. -/
theorem appendDedup_fifo (h : List VideoRec) (e : VideoRec)
    (hl : h.length = 5) :
    appendDedup h e = h.tail ++ [e] ∧ (appendDedup h e).length = 5 ∧
    ∀ (g : List VideoRec) (f : VideoRec), g.length ≤ 5 →
      (appendDedup g f).length ≤ 5 := by
  refine ⟨?_, ?_, ?_⟩
  · cases h with
    | nil => simp at hl
    | cons a tl =>
      have ht : tl.length = 4 := by simpa using hl
      simp [appendDedup, ht]
  · cases h with
    | nil => simp at hl
    | cons a tl =>
      have ht : tl.length = 4 := by simpa using hl
      simp [appendDedup, ht]
  · intro g f hg
    simp only [appendDedup]
    split
    next hlt =>
      simp only [List.length_tail, List.length_append,
        List.length_singleton] at *
      omega
    next hge =>
      simp only [List.length_append, List.length_singleton] at *
      omega

/-- Witness for C5 on a concrete 5-entry history. -/
theorem appendDedup_fifo_w :
    ([⟨"1", "a", "t"⟩, ⟨"2", "b", "t"⟩, ⟨"3", "c", "t"⟩, ⟨"4", "d", "t"⟩,
      ⟨"5", "e", "t"⟩] : List VideoRec).length = 5 ∧
    (appendDedup [⟨"1", "a", "t"⟩, ⟨"2", "b", "t"⟩, ⟨"3", "c", "t"⟩,
        ⟨"4", "d", "t"⟩, ⟨"5", "e", "t"⟩] ⟨"6", "f", "t"⟩
      = ([⟨"1", "a", "t"⟩, ⟨"2", "b", "t"⟩, ⟨"3", "c", "t"⟩, ⟨"4", "d", "t"⟩,
          ⟨"5", "e", "t"⟩] : List VideoRec).tail ++ [⟨"6", "f", "t"⟩] ∧
     (appendDedup [⟨"1", "a", "t"⟩, ⟨"2", "b", "t"⟩, ⟨"3", "c", "t"⟩,
        ⟨"4", "d", "t"⟩, ⟨"5", "e", "t"⟩] ⟨"6", "f", "t"⟩).length = 5 ∧
     ∀ (g : List VideoRec) (f : VideoRec), g.length ≤ 5 →
       (appendDedup g f).length ≤ 5) :=
  ⟨by decide,
   appendDedup_fifo [⟨"1", "a", "t"⟩, ⟨"2", "b", "t"⟩, ⟨"3", "c", "t"⟩,
     ⟨"4", "d", "t"⟩, ⟨"5", "e", "t"⟩] ⟨"6", "f", "t"⟩ (by decide)⟩

/-- Claim C6: when the feed yields no entry, or when the newest entry's
external id is already in the channel's dedup history, the cycle is a
no-op for the channel: the database is returned unchanged and no effect
(no notification, no file write) is produced. -/
theorem processChannel_noop (env : Env) (webhook : String) (db : DB)
    (y : Youtuber) (last : List VideoRec)
    (hload : load_last_video_data env.fs env.parseVideoData y.name
      = Except.ok last)
    (hfeed : env.fetch_new_video (feed_url y.channel_id) = none ∨
      ∃ v, env.fetch_new_video (feed_url y.channel_id) = some v ∧
        last.any (fun r => r.id == v.yt_videoid) = true) :
    processChannel env webhook db y = Except.ok (db, []) := by
  unfold processChannel
  rw [hload]
  rcases hfeed with hf | ⟨v, hv, hany⟩
  · rw [hf]
  · rw [hv]
    simp [hany]

/-- Witness for C6: an empty feed for channel "A" leaves the database
untouched and produces no effects. -/
theorem processChannel_noop_w :
    load_last_video_data envIdle.fs envIdle.parseVideoData chanA.name
      = Except.ok [] ∧
    (envIdle.fetch_new_video (feed_url chanA.channel_id) = none ∨
      ∃ v, envIdle.fetch_new_video (feed_url chanA.channel_id) = some v ∧
        List.any ([] : List VideoRec) (fun r => r.id == v.yt_videoid)
          = true) ∧
    processChannel envIdle "hook" DB.empty chanA = Except.ok (DB.empty, []) :=
  ⟨rfl, Or.inl rfl,
   processChannel_noop envIdle "hook" DB.empty chanA [] rfl (Or.inl rfl)⟩

/-- Claim C7: when the video is new but the transcript fetch returns null
(retries exhausted), the channel pass still creates the Video row, writes
no transcript/summary/quote/topic/embedding/advisor-note rows, produces
exactly one notification whose summary is "No transcript found." and one
dedup-file write with the video appended. -/
theorem processChannel_no_transcript (env : Env) (webhook : String)
    (db : DB) (y : Youtuber) (last : List VideoRec) (v : FeedEntry)
    (hload : load_last_video_data env.fs env.parseVideoData y.name
      = Except.ok last)
    (hfeed : env.fetch_new_video (feed_url y.channel_id) = some v)
    (hnew : last.any (fun r => r.id == v.yt_videoid) = false)
    (hft : (fetch_transcript (env.transcript_svc v.yt_videoid) 5 2).result
      = none) :
    ∃ db₂ : DB,
      processChannel env webhook db y = Except.ok (db₂,
        [Effect.sendNotif v.link "No transcript found." webhook,
         Effect.saveDedupFile y.name
           (appendDedup last ⟨v.yt_videoid, v.title, v.published⟩)]) ∧
      db₂.videos.any (fun r => r.youtube_id == v.yt_videoid) = true ∧
      db₂.transcripts = db.transcripts ∧
      db₂.summaries = db.summaries ∧
      db₂.quotes = db.quotes ∧
      db₂.topics = db.topics ∧
      db₂.videoTopics = db.videoTopics ∧
      db₂.embeddings = db.embeddings ∧
      db₂.advisorNotes = db.advisorNotes := by
  rcases hgc : db.get_or_create_channel y.channel_id y.name with ⟨cid, db₁⟩
  rcases hsv : db₁.store_video v.yt_videoid cid v.title v.published
      v.media_thumbnail with ⟨vid2, db₂⟩
  have h1 := get_or_create_channel_frame db y.channel_id y.name
  have h2 := store_video_frame db₁ v.yt_videoid cid v.title v.published
    v.media_thumbnail
  rw [hgc] at h1
  rw [hsv] at h2
  obtain ⟨h1v, h1t, h1tr, h1s, h1q, h1e, h1vt, h1a⟩ := h1
  obtain ⟨h2c, h2t, h2tr, h2s, h2q, h2e, h2vt, h2a⟩ := h2
  refine ⟨db₂, ?_, ?_, ?_, ?_, ?_, ?_, ?_, ?_, ?_⟩
  · unfold processChannel
    rw [hload, hfeed]
    simp only [hnew, Bool.false_eq_true, if_false, hgc, hsv, hft]
  · have := store_video_creates db₁ v.yt_videoid cid v.title v.published
      v.media_thumbnail
    rw [hsv] at this
    exact this
  · rw [h2tr, h1tr]
  · rw [h2s, h1s]
  · rw [h2q, h1q]
  · rw [h2t, h1t]
  · rw [h2vt, h1vt]
  · rw [h2e, h1e]
  · rw [h2a, h1a]

/-- Witness for C7: channel "B" with video `vidB`, empty history, and a
transcript service that fails transiently on all five attempts. -/
theorem processChannel_no_transcript_w :
    load_last_video_data envNoTr.fs envNoTr.parseVideoData chanB.name
      = Except.ok [] ∧
    envNoTr.fetch_new_video (feed_url chanB.channel_id) = some entryB ∧
    List.any ([] : List VideoRec)
      (fun r => r.id == entryB.yt_videoid) = false ∧
    (fetch_transcript (envNoTr.transcript_svc entryB.yt_videoid) 5 2).result
      = none ∧
    (∃ db₂ : DB,
      processChannel envNoTr "hook" DB.empty chanB = Except.ok (db₂,
        [Effect.sendNotif entryB.link "No transcript found." "hook",
         Effect.saveDedupFile chanB.name
           (appendDedup []
             ⟨entryB.yt_videoid, entryB.title, entryB.published⟩)]) ∧
      db₂.videos.any (fun r => r.youtube_id == entryB.yt_videoid) = true ∧
      db₂.transcripts = DB.empty.transcripts ∧
      db₂.summaries = DB.empty.summaries ∧
      db₂.quotes = DB.empty.quotes ∧
      db₂.topics = DB.empty.topics ∧
      db₂.videoTopics = DB.empty.videoTopics ∧
      db₂.embeddings = DB.empty.embeddings ∧
      db₂.advisorNotes = DB.empty.advisorNotes) :=
  ⟨rfl, rfl, rfl, rfl,
   processChannel_no_transcript envNoTr "hook" DB.empty chanB [] entryB
     rfl rfl rfl rfl⟩

/-- Claim C8: topic storage is normalisation-idempotent: two labels equal
after lower-casing and trimming resolve to the same topic id, the second
call changes nothing, and (when the table held at most one row for that
normalised value, as the insert path itself guarantees) exactly one row
for the normalised value remains. -/
theorem get_or_create_topic_normalized (db : DB) (a b : String)
    (h : normalizeTopic a = normalizeTopic b) :
    ((db.get_or_create_topic a).2.get_or_create_topic b).1
        = (db.get_or_create_topic a).1 ∧
    ((db.get_or_create_topic a).2.get_or_create_topic b).2
        = (db.get_or_create_topic a).2 ∧
    (db.topics.countP (fun r => sqlTrim r.name == normalizeTopic a) ≤ 1 →
      (db.get_or_create_topic a).2.topics.countP
        (fun r => sqlTrim r.name == normalizeTopic a) = 1) := by
  have hb : (fun r : TopicRow => sqlTrim r.name == normalizeTopic b)
      = (fun r : TopicRow => sqlTrim r.name == normalizeTopic a) := by
    rw [h]
  have htrue : (sqlTrim (normalizeTopic a) == normalizeTopic a) = true := by
    simp [sqlTrim_normalizeTopic]
  simp only [DB.get_or_create_topic, hb]
  cases hfind : db.topics.find? (fun r => sqlTrim r.name == normalizeTopic a)
  with
  | some r =>
    simp only [hfind]
    refine ⟨by trivial, by trivial, fun hc => ?_⟩
    have hpos : 0 < List.countP
        (fun r => sqlTrim r.name == normalizeTopic a) db.topics := by
      rw [List.countP_pos_iff]
      exact ⟨r, List.mem_of_find?_eq_some hfind,
        List.find?_some (p := fun r : TopicRow => sqlTrim r.name == normalizeTopic a)
          hfind⟩
    omega
  | none =>
    simp only [hfind]
    have hfind2 :
        List.find? (fun r : TopicRow => sqlTrim r.name == normalizeTopic a)
          (db.topics ++ [⟨db.nextTopicId, normalizeTopic a⟩])
        = some ⟨db.nextTopicId, normalizeTopic a⟩ := by
      rw [List.find?_append, hfind]
      simp [List.find?_cons, htrue]
    simp only [hfind2]
    refine ⟨by trivial, by trivial, fun _ => ?_⟩
    have hzero : List.countP
        (fun r => sqlTrim r.name == normalizeTopic a) db.topics = 0 :=
      List.countP_eq_zero.mpr (by
        intro x hx hpx
        have := List.find?_eq_none.mp hfind x hx
        exact this hpx)
    simp [List.countP_append, List.countP_cons, hzero, htrue]

/-- Witness for C8 at a concrete input: "Beer " and "beer" normalise
alike, and the double call on the empty database returns equal ids. -/
theorem get_or_create_topic_normalized_w :
    normalizeTopic "Beer " = normalizeTopic "beer" ∧
    (((DB.empty.get_or_create_topic "Beer ").2.get_or_create_topic
        "beer").1 = (DB.empty.get_or_create_topic "Beer ").1 ∧
     ((DB.empty.get_or_create_topic "Beer ").2.get_or_create_topic
        "beer").2 = (DB.empty.get_or_create_topic "Beer ").2 ∧
     (DB.empty.topics.countP
        (fun r => sqlTrim r.name == normalizeTopic "Beer ") ≤ 1 →
      (DB.empty.get_or_create_topic "Beer ").2.topics.countP
        (fun r => sqlTrim r.name == normalizeTopic "Beer ") = 1)) :=
  ⟨by decide,
   get_or_create_topic_normalized DB.empty "Beer " "beer" (by decide)⟩

/-- Claim C9: channel and video inserts are idempotent by external id:
a repeated `get_or_create_channel` with the same external channel id, and
a repeated `store_video` with the same external video id, return the same
local id, leave the database unchanged on the second call, and (under the
schema's uniqueness of the external id, `countP ≤ 1`) leave exactly one
row for that external id; both model functions are total, so no failure
occurs on the duplicate call. -/
theorem channel_video_insert_idempotent (db : DB)
    (cy cn cn' vy t t' u u' : String) (ch ch' : Nat) (th th' : Option String)
    (hc : db.channels.countP (fun r => r.youtube_id == cy) ≤ 1)
    (hv : db.videos.countP (fun r => r.youtube_id == vy) ≤ 1) :
    (((db.get_or_create_channel cy cn).2.get_or_create_channel cy cn').1
        = (db.get_or_create_channel cy cn).1 ∧
     ((db.get_or_create_channel cy cn).2.get_or_create_channel cy cn').2
        = (db.get_or_create_channel cy cn).2 ∧
     (db.get_or_create_channel cy cn).2.channels.countP
        (fun r => r.youtube_id == cy) = 1) ∧
    (((db.store_video vy ch t u th).2.store_video vy ch' t' u' th').1
        = (db.store_video vy ch t u th).1 ∧
     ((db.store_video vy ch t u th).2.store_video vy ch' t' u' th').2
        = (db.store_video vy ch t u th).2 ∧
     (db.store_video vy ch t u th).2.videos.countP
        (fun r => r.youtube_id == vy) = 1) := by
  constructor
  · simp only [DB.get_or_create_channel]
    cases hfind : db.channels.find? (fun r => r.youtube_id == cy) with
    | some r =>
      simp only [hfind]
      refine ⟨by trivial, by trivial, ?_⟩
      have hpos : 0 < List.countP
          (fun r => r.youtube_id == cy) db.channels := by
        rw [List.countP_pos_iff]
        exact ⟨r, List.mem_of_find?_eq_some hfind,
          List.find?_some (p := fun r : ChannelRow => r.youtube_id == cy) hfind⟩
      omega
    | none =>
      simp only [hfind]
      have hfind2 :
          List.find? (fun r : ChannelRow => r.youtube_id == cy)
            (db.channels ++ [⟨db.nextChannelId, cy, cn⟩])
          = some ⟨db.nextChannelId, cy, cn⟩ := by
        rw [List.find?_append, hfind]
        simp [List.find?_cons]
      simp only [hfind2]
      refine ⟨by trivial, by trivial, ?_⟩
      have hzero : List.countP (fun r => r.youtube_id == cy) db.channels
          = 0 :=
        List.countP_eq_zero.mpr (by
          intro x hx hpx
          exact List.find?_eq_none.mp hfind x hx hpx)
      simp [List.countP_append, List.countP_cons, hzero]
  · simp only [DB.store_video]
    cases hfind : db.videos.find? (fun r => r.youtube_id == vy) with
    | some r =>
      simp only [hfind]
      refine ⟨by trivial, by trivial, ?_⟩
      have hpos : 0 < List.countP
          (fun r => r.youtube_id == vy) db.videos := by
        rw [List.countP_pos_iff]
        exact ⟨r, List.mem_of_find?_eq_some hfind,
          List.find?_some (p := fun r : VideoRow => r.youtube_id == vy) hfind⟩
      omega
    | none =>
      simp only [hfind]
      have hfind2 :
          List.find? (fun r : VideoRow => r.youtube_id == vy)
            (db.videos ++ [⟨db.nextVideoId, vy, ch, t, u, th⟩])
          = some ⟨db.nextVideoId, vy, ch, t, u, th⟩ := by
        rw [List.find?_append, hfind]
        simp [List.find?_cons]
      simp only [hfind2]
      refine ⟨by trivial, by trivial, ?_⟩
      have hzero : List.countP (fun r => r.youtube_id == vy) db.videos
          = 0 :=
        List.countP_eq_zero.mpr (by
          intro x hx hpx
          exact List.find?_eq_none.mp hfind x hx hpx)
      simp [List.countP_append, List.countP_cons, hzero]

/-- Witness for C9 on the empty database with concrete external ids. -/
theorem channel_video_insert_idempotent_w :
    DB.empty.channels.countP (fun r => r.youtube_id == "UCx") ≤ 1 ∧
    DB.empty.videos.countP (fun r => r.youtube_id == "vid1") ≤ 1 ∧
    ((((DB.empty.get_or_create_channel "UCx" "Cobra").2.get_or_create_channel
          "UCx" "Other").1
        = (DB.empty.get_or_create_channel "UCx" "Cobra").1 ∧
      ((DB.empty.get_or_create_channel "UCx" "Cobra").2.get_or_create_channel
          "UCx" "Other").2
        = (DB.empty.get_or_create_channel "UCx" "Cobra").2 ∧
      (DB.empty.get_or_create_channel "UCx" "Cobra").2.channels.countP
        (fun r => r.youtube_id == "UCx") = 1) ∧
     (((DB.empty.store_video "vid1" 1 "T" "2024" none).2.store_video
          "vid1" 2 "T2" "2025" none).1
        = (DB.empty.store_video "vid1" 1 "T" "2024" none).1 ∧
      ((DB.empty.store_video "vid1" 1 "T" "2024" none).2.store_video
          "vid1" 2 "T2" "2025" none).2
        = (DB.empty.store_video "vid1" 1 "T" "2024" none).2 ∧
      (DB.empty.store_video "vid1" 1 "T" "2024" none).2.videos.countP
        (fun r => r.youtube_id == "vid1") = 1)) :=
  ⟨by decide, by decide,
   channel_video_insert_idempotent DB.empty "UCx" "Cobra" "Other" "vid1"
     "T" "T2" "2024" "2025" 1 2 none none (by decide) (by decide)⟩

/-! ## Claims about the database layer -/

/-- Claim C10: every call to `store_summary(video_id, content)` inserts
exactly one summary row and, in addition, one quote row for `video_id` per
occurrence in `content` of a double-quoted span wrapped in double
asterisks (the non-overlapping left-to-right matches of
`\*\*"([^"]+)"\*\*`), carrying the quoted span; the quote table is
unchanged precisely when no position of `content` matches the pattern,
and no other table is touched. -/
theorem store_summary_rows (db : DB) (vid : Nat) (content : String) :
    (db.store_summary vid content).summaries
        = db.summaries ++ [(vid, content)] ∧
    (db.store_summary vid content).quotes
        = db.quotes ++ (extractQuotes content).map (fun q => (vid, q)) ∧
    ((db.store_summary vid content).quotes = db.quotes ↔
        ∀ t, t <:+ content.data → matchQuoteAt t = none) ∧
    (db.store_summary vid content).channels = db.channels ∧
    (db.store_summary vid content).videos = db.videos ∧
    (db.store_summary vid content).transcripts = db.transcripts ∧
    (db.store_summary vid content).topics = db.topics ∧
    (db.store_summary vid content).embeddings = db.embeddings ∧
    (db.store_summary vid content).videoTopics = db.videoTopics ∧
    (db.store_summary vid content).advisorNotes = db.advisorNotes := by
  refine ⟨rfl, rfl, ?_, rfl, rfl, rfl, rfl, rfl, rfl, rfl⟩
  show db.quotes ++ (extractQuotes content).map (fun q => (vid, q))
      = db.quotes ↔ _
  rw [List.append_right_eq_self, List.map_eq_nil_iff]
  unfold extractQuotes
  rw [List.map_eq_nil_iff]
  exact findQuotes_eq_nil_iff content.data

end CobraPinger
